import Mathlib

/-
Verification of the multi-tier text-analysis cascade of the analista
repository: the price extractor (src/utils/extract_price.py), the local
keyword classifier (src/utils/model_manager.py) and the orchestrating
cascade with its cache (src/utils/optimized_analyzer.py), shallowly
embedded in Lean.  Python strings are modelled as Lean String over their
ASCII core, Python floats as exact rationals, Python dicts as association
lists, and the fixed regular expressions of the source as terms of a small
executable regex AST with Python matching semantics (leftmost match,
greedy backtracking priority).
-/

set_option maxRecDepth 10000

namespace Analista

/-- Case-insensitive substring membership, modelling the Python operator
`needle in haystack` on lists of characters. -/
def listContainsSub (hay needle : List Char) : Bool :=
  hay.tails.any (fun t => needle.isPrefixOf t)

/-- Python `needle in haystack` for strings. -/
def strContains (hay needle : String) : Bool :=
  listContainsSub hay.toList needle.toList

/-- Python str.lower on the ASCII core, character by character. -/
def strToLower (s : String) : String :=
  String.mk (s.toList.map Char.toLower)

/-- Character class kept by the first substitution of `clean_text`
(Python regex class [^\w\s\.\,\$\€\£\¥\-\+\%\d], modelled on its ASCII
core for word characters). -/
def isKeptChar (c : Char) : Bool :=
  c.isAlphanum || c == '_' || c.isWhitespace || c == '.' || c == ',' ||
  c == '$' || c == '€' || c == '£' || c == '¥' || c == '-' || c == '+' || c == '%'

/-- Collapse runs of whitespace into a single space, modelling the
substitution of regex \s+ by one space; the flag records whether the
previous character was whitespace. -/
def collapseWsAux : Bool → List Char → List Char
  | _, [] => []
  | prevWs, c :: cs =>
    if c.isWhitespace then
      if prevWs then collapseWsAux true cs else ' ' :: collapseWsAux true cs
    else c :: collapseWsAux false cs

/-- Single left-to-right pass removing a comma between a digit and exactly
three following digits, modelling one application of
re.sub on the pattern of a digit, a comma and three digits (the
replacement keeps the digits); scanning resumes after each match, so a
second separator as in 1,234,567 survives the pass. -/
def collapseThousandsAux : Nat → List Char → List Char
  | 0, l => l
  | _, [] => []
  | fuel + 1, c1 :: rest1 =>
    match rest1 with
    | ',' :: c2 :: c3 :: c4 :: rest =>
      if c1.isDigit && c2.isDigit && c3.isDigit && c4.isDigit then
        c1 :: c2 :: c3 :: c4 :: collapseThousandsAux fuel rest
      else c1 :: collapseThousandsAux fuel rest1
    | _ => c1 :: collapseThousandsAux fuel rest1

/-- The scan of collapseThousandsAux consumes at least one character per
step, so the input length is sufficient fuel. -/
def collapseThousands (l : List Char) : List Char :=
  collapseThousandsAux l.length l

/-- Strip leading and trailing whitespace, modelling Python str.strip. -/
def stripEnds (l : List Char) : List Char :=
  ((l.dropWhile Char.isWhitespace).reverse.dropWhile Char.isWhitespace).reverse

/-- Embedding of clean_text from src/utils/extract_price.py: empty input
yields the empty string, otherwise characters outside the kept class are
replaced by spaces, whitespace runs are collapsed, thousand separators are
removed in one pass and the ends are stripped. -/
def clean_text (text : String) : String :=
  if text = "" then "" else
    String.mk (stripEnds (collapseThousands (collapseWsAux false
      (text.toList.map (fun c => if isKeptChar c then c else ' ')))))

/-- Value of a list of decimal digit characters. -/
def digitsToNat (l : List Char) : Nat :=
  l.foldl (fun n c => 10 * n + (c.toNat - 48)) 0

/-- Keep only digits and dots, modelling re.sub of the class [^\d\.] by
the empty string. -/
def stripNonNumeric (s : String) : String :=
  String.mk (s.toList.filter (fun c => c.isDigit || c == '.'))

/-- Exact-rational model of Python float() on a string of digits and
dots: defined exactly when there is at most one dot and at least one
digit; Python float() raises ValueError otherwise. -/
def parseNumQ (s : String) : Option ℚ :=
  let l := s.toList
  if l.all (fun c => c.isDigit || c == '.') &&
     decide (l.countP (fun c => c == '.') ≤ 1) && l.any (fun c => c.isDigit) then
    let ip := l.takeWhile (fun c => c ≠ '.')
    let fp := (l.dropWhile (fun c => c ≠ '.')).drop 1
    some ((digitsToNat ip : ℚ) + (digitsToNat fp : ℚ) / (10 : ℚ) ^ fp.length)
  else none

/-- Insert a comma after every three characters of the reversed digit
list; helper for thousands grouping. -/
def groupRev : List Char → List Char
  | a :: b :: c :: rest =>
    match rest with
    | [] => [a, b, c]
    | _ :: _ => a :: b :: c :: ',' :: groupRev rest
  | l => l

/-- Thousands-grouped decimal rendering of a natural number, modelling
the Python format specification with a comma and zero decimals. -/
def groupThousands (n : Nat) : String :=
  String.mk ((groupRev (toString n).toList.reverse).reverse)

/-- Round to the nearest integer with ties to even, the rounding of
Python float formatting, taken on the exact rational value. -/
def roundHalfEven (q : ℚ) : ℤ :=
  let f := ⌊q⌋
  let r := q - f
  if r < 1/2 then f else if 1/2 < r then f + 1 else if f % 2 = 0 then f else f + 1

/-- Two-digit zero-padded rendering of a natural number below 100. -/
def twoDigits (n : Nat) : String :=
  if n < 10 then "0" ++ toString n else toString n

/-- Dollar rendering used by normalize_price: thousands grouping with no
decimals for values of at least 1000, otherwise two decimal places. -/
def formatMoney (q : ℚ) : String :=
  if 1000 ≤ q then "$" ++ groupThousands (roundHalfEven q).toNat
  else
    let c := (roundHalfEven (q * 100)).toNat
    "$" ++ toString (c / 100) ++ "." ++ twoDigits (c % 100)

/-- Embedding of normalize_price from src/utils/extract_price.py: empty
input yields the empty string; otherwise the input is stripped to digits
and dots and parsed, a successful parse is rendered in dollar format and
a failed parse returns the input unchanged. -/
def normalize_price (price_str : String) : String :=
  if price_str = "" then "" else
    match parseNumQ (stripNonNumeric price_str) with
    | some q => formatMoney q
    | none => price_str

/-- Keyword list of is_likely_price. -/
def priceKeywords : List String :=
  ["price", "cost", "fee", "charge", "setup", "monthly", "annual",
   "subscription", "license", "package", "plan", "tier"]

/-- Embedding of is_likely_price from src/utils/extract_price.py: true
exactly when the numeric content of the candidate parses, the lowercased
context contains one of the price keywords and the value lies between 1
and 1000000; a parse failure is the except branch returning False. -/
def is_likely_price (price ctx : String) : Bool :=
  match parseNumQ (stripNonNumeric price) with
  | none => false
  | some v =>
    (priceKeywords.any (fun k => strContains (strToLower ctx) k)) &&
    decide (1 ≤ v) && decide (v ≤ 1000000)

/-- Abstract syntax of the fixed regular expressions used by the source:
literal character, character class, concatenation, ordered alternation,
greedy star and capturing group. -/
inductive RE where
  | eps
  | chr (c : Char)
  | cls (p : Char → Bool)
  | cat (a b : RE)
  | alt (a b : RE)
  | star (a : RE)
  | grp (a : RE)

/-- Greedy star loop of the backtracking matcher: alternatives are listed
with more iterations first, iterations that consume no input are cut (as
Python cuts repeated empty matches), and the fuel bounds the number of
iterations by the input length. -/
def starLoop (m : List Char → List (List String × List Char)) :
    Nat → List Char → List (List String × List Char)
  | 0, s => [([], s)]
  | fuel + 1, s =>
    ((m s).flatMap (fun gr =>
      if gr.2.length < s.length then
        (starLoop m fuel gr.2).map (fun gr2 => (gr.1 ++ gr2.1, gr2.2))
      else [])) ++ [([], s)]

/-- Backtracking matcher: all ways to match a prefix of the input, as
pairs of captured group list and remaining input, in Python backtracking
priority order (greedy quantifiers first, left alternative first); the
head of the list is the match Python chooses.  The flag selects the
IGNORECASE comparison of literals. -/
def matchRE (ci : Bool) : RE → List Char → List (List String × List Char)
  | .eps, s => [([], s)]
  | .chr c, s =>
    match s with
    | [] => []
    | d :: rest =>
      if (if ci then d.toLower == c.toLower else d == c) then [([], rest)] else []
  | .cls p, s =>
    match s with
    | [] => []
    | d :: rest => if p d then [([], rest)] else []
  | .cat a b, s =>
    (matchRE ci a s).flatMap (fun gr =>
      (matchRE ci b gr.2).map (fun gr2 => (gr.1 ++ gr2.1, gr2.2)))
  | .alt a b, s => matchRE ci a s ++ matchRE ci b s
  | .star a, s => starLoop (fun t => matchRE ci a t) (s.length + 1) s
  | .grp a, s =>
    (matchRE ci a s).map (fun gr =>
      (gr.1 ++ [String.mk (s.take (s.length - gr.2.length))], gr.2))

/-- Scanning loop of re.findall: try a match at each position from the
left, record the captured groups of each match and resume after it (or
one character further on an empty match), otherwise advance one
character. -/
def scanAux (m : List Char → List (List String × List Char)) :
    Nat → List Char → List (List String)
  | 0, _ => []
  | fuel + 1, s =>
    match (m s).head? with
    | some gr =>
      if gr.2.length < s.length then gr.1 :: scanAux m fuel gr.2
      else
        gr.1 :: (match s with | [] => [] | _ :: rest => scanAux m fuel rest)
    | none =>
      match s with
      | [] => []
      | _ :: rest => scanAux m fuel rest

/-- Embedding of re.findall: the list of captured-group lists of all
non-overlapping leftmost matches. -/
def findAll (ci : Bool) (re : RE) (s : List Char) : List (List String) :=
  scanAux (matchRE ci re) (s.length + 1) s

/-- Literal string as a regex. -/
def reStr (s : String) : RE :=
  s.toList.foldr (fun c r => RE.cat (RE.chr c) r) RE.eps

/-- Ordered alternation of a list of regexes. -/
def reAlts : List RE → RE
  | [] => RE.eps
  | [r] => r
  | r :: rs => RE.alt r (reAlts rs)

/-- Class \d of the source patterns (ASCII core). -/
def reDigit : RE := RE.cls Char.isDigit

/-- Class \s of the source patterns. -/
def reWs : RE := RE.cls Char.isWhitespace

/-- Greedy plus. -/
def rePlus (a : RE) : RE := RE.cat a (RE.star a)

/-- Greedy option, present branch first. -/
def reOpt (a : RE) : RE := RE.alt a RE.eps

/-- Optional cents suffix (?:\.\d\{2\})? shared by the price patterns. -/
def reCents : RE := reOpt (RE.cat (RE.chr '.') (RE.cat reDigit reDigit))

/-- Core number shape of the source patterns:
digits, optional comma-separated three-digit groups, optional cents. -/
def reNumCore : RE :=
  RE.cat (rePlus reDigit)
    (RE.cat (RE.star (RE.cat (RE.chr ',') (RE.cat reDigit (RE.cat reDigit reDigit))))
      reCents)

/-- Class [\d,]+ used after a currency symbol or code. -/
def reDigCommas : RE := rePlus (RE.cls (fun c => c.isDigit || c == ','))

/-- Currency-symbol pattern family: symbol, optional whitespace, captured
digits-and-commas with optional cents. -/
def reSymNum (sym : Char) : RE :=
  RE.cat (RE.chr sym) (RE.cat (RE.star reWs) (RE.grp (RE.cat reDigCommas reCents)))

/-- Currency-code pattern family (USD, EUR, GBP). -/
def reCodeNum (code : String) : RE :=
  RE.cat (reStr code) (RE.cat (RE.star reWs) (RE.grp (RE.cat reDigCommas reCents)))

/-- Captured number followed by a currency word with optional plural s. -/
def reNumWord (w : String) : RE :=
  RE.cat (RE.grp reNumCore)
    (RE.cat (RE.star reWs) (RE.cat (reStr w) (reOpt (RE.chr 's'))))

/-- Optional colon-or-dash separator [:\-]? of the keyword patterns. -/
def reSep : RE := reOpt (RE.cls (fun c => c == ':' || c == '-'))

/-- Pattern of a captured number followed by price, cost, fee or charge. -/
def reNumThenKeyword : RE :=
  RE.cat (RE.grp reNumCore)
    (RE.cat (RE.star reWs)
      (reAlts [reStr "price", reStr "cost", reStr "fee", reStr "charge"]))

/-- Pattern of price, cost, fee or charge followed by a captured number. -/
def reKeywordThenNum : RE :=
  RE.cat (reAlts [reStr "price", reStr "cost", reStr "fee", reStr "charge"])
    (RE.cat (RE.star reWs) (RE.cat reSep (RE.cat (RE.star reWs) (RE.grp reNumCore))))

/-- Dash price-range pattern with two captured numbers. -/
def reRangeDash : RE :=
  RE.cat (RE.grp reNumCore)
    (RE.cat (RE.star reWs) (RE.cat (RE.chr '-') (RE.cat (RE.star reWs) (RE.grp reNumCore))))

/-- from-to price-range pattern with two captured numbers. -/
def reRangeFromTo : RE :=
  RE.cat (reStr "from")
    (RE.cat (RE.star reWs)
      (RE.cat (RE.grp reNumCore)
        (RE.cat (RE.star reWs)
          (RE.cat (reStr "to") (RE.cat (RE.star reWs) (RE.grp reNumCore))))))

/-- Captured number followed by per month, per year or per annum. -/
def rePerPeriod : RE :=
  RE.cat (RE.grp reNumCore)
    (RE.cat (RE.star reWs)
      (RE.cat (reStr "per")
        (RE.cat (RE.star reWs) (reAlts [reStr "month", reStr "year", reStr "annum"]))))

/-- Captured number followed by monthly, yearly or annual. -/
def rePeriodWord : RE :=
  RE.cat (RE.grp reNumCore)
    (RE.cat (RE.star reWs) (reAlts [reStr "monthly", reStr "yearly", reStr "annual"]))

/-- setup fee or setup cost followed by a captured number. -/
def reSetupThenNum : RE :=
  RE.cat (reStr "setup")
    (RE.cat (RE.star reWs)
      (RE.cat (reAlts [reStr "fee", reStr "cost"])
        (RE.cat (RE.star reWs) (RE.cat reSep (RE.cat (RE.star reWs) (RE.grp reNumCore))))))

/-- Captured number followed by setup. -/
def reNumThenSetup : RE :=
  RE.cat (RE.grp reNumCore) (RE.cat (RE.star reWs) (reStr "setup"))

/-- The ordered pattern list of extract_price_from_text, paired with a
flag marking the two-group range patterns whose findall matches are
tuples in Python. -/
def pricePatterns : List (RE × Bool) :=
  [ (reSymNum '$', false), (reCodeNum "USD", false), (reNumWord "dollar", false),
    (reSymNum '€', false), (reCodeNum "EUR", false), (reNumWord "euro", false),
    (reSymNum '£', false), (reCodeNum "GBP", false), (reNumWord "pound", false),
    (reNumThenKeyword, false), (reKeywordThenNum, false),
    (reRangeDash, true), (reRangeFromTo, true),
    (rePerPeriod, false), (rePeriodWord, false),
    (reSetupThenNum, false), (reNumThenSetup, false) ]

/-- Last-resort pattern: a captured number of four or more digits with
optional comma groups and cents. -/
def reLargeNumber : RE :=
  RE.grp (RE.cat reDigit (RE.cat reDigit (RE.cat reDigit
    (RE.cat (rePlus reDigit)
      (RE.cat (RE.star (RE.cat (RE.chr ',') (RE.cat reDigit (RE.cat reDigit reDigit))))
        reCents)))))

/-- Candidate collection step of the source loop over one pattern: a
two-group match contributes its nonempty groups, a one-group match its
group, each normalized. -/
def collectMatches (twoGroups : Bool) (ms : List (List String)) : List String :=
  ms.flatMap (fun gs =>
    if twoGroups then (gs.filter (fun p => p ≠ "")).map normalize_price
    else gs.map normalize_price)

/-- All candidates produced by the seventeen price patterns, in pattern
order then match order, each normalized. -/
def foundPricesPatterns (ct : List Char) : List String :=
  pricePatterns.flatMap (fun pr => collectMatches pr.2 (findAll true pr.1 ct))

/-- Fallback candidates: every four-or-more-digit number, normalized. -/
def largeNumberPrices (ct : List Char) : List String :=
  (findAll false reLargeNumber ct).flatMap (fun gs => gs.map normalize_price)

/-- Full candidate list of extract_price_from_text on an input text: the
pattern candidates, or the large-number fallback when none matched. -/
def candidatePrices (t : String) : List String :=
  let ct := (clean_text t).toList
  let fp := foundPricesPatterns ct
  if fp.isEmpty then largeNumberPrices ct else fp

/-- Selection loop of the source: return the first candidate accepted by
is_likely_price. -/
def firstLikely (ctx : String) : List String → Option String
  | [] => none
  | p :: ps => if is_likely_price p ctx then some p else firstLikely ctx ps

/-- Embedding of extract_price_from_text from src/utils/extract_price.py:
empty text yields none, otherwise the text is cleaned, candidates are
collected over all patterns with the large-number fallback, and the first
likely candidate is returned, else the first candidate, else none. -/
def extract_price_from_text (text : String) : Option String :=
  if text = "" then none else
    let ct := clean_text text
    let found0 := foundPricesPatterns ct.toList
    let found := if found0.isEmpty then largeNumberPrices ct.toList else found0
    if found.isEmpty then none else
      match firstLikely ct found with
      | some p => some p
      | none => found.head?

/-- Fixed category-to-keyword map of _process_classification_output in
src/utils/model_manager.py, in its declaration order. -/
def moduleKeywords : List (String × List String) :=
  [("Wallet Base", ["wallet", "crypto", "digital currency"]),
   ("KYC/KYB", ["kyc", "kyb", "verification", "identity", "compliance"]),
   ("Trading Platform", ["trading", "exchange", "broker", "market"]),
   ("Payment Gateway", ["payment", "gateway", "transaction", "processing"]),
   ("White Label Solution", ["white label", "whitelabel", "customizable"])]

/-- Score of one category: fraction of its keywords found in the
lowercased text, as an exact rational. -/
def moduleScore (textLower : String) (kws : List String) : ℚ :=
  (kws.countP (fun k => strContains textLower k) : ℚ) / (kws.length : ℚ)

/-- Score list over all categories, in declaration order, modelling the
scores dict of the source. -/
def moduleScores (text : String) : List (String × ℚ) :=
  moduleKeywords.map (fun mk => (mk.1, moduleScore (strToLower text) mk.2))

/-- Python max over (category, score) items keyed by score: the fold
keeps the current maximum and replaces it only on a strictly greater
score, so the first maximal item wins. -/
def argmaxFold : List (String × ℚ) → Option (String × ℚ)
  | [] => none
  | x :: xs => some (xs.foldl (fun best y => if best.2 < y.2 then y else best) x)

/-- Output record of _process_classification_output. -/
structure ClassifierOutput where
  clasificacion_modulo : String
  confianza_analisis : String
  scores : List (String × ℚ)
deriving Repr, DecidableEq

/-- Embedding of _process_classification_output from
src/utils/model_manager.py: score every category, take the arg-max item,
substitute General Service when its score is zero, and report confidence
alta exactly above one half, media otherwise. -/
def process_classification_output (text : String) : ClassifierOutput :=
  let scores := moduleScores text
  let best := (argmaxFold scores).getD ("", 0)
  { clasificacion_modulo := if 0 < best.2 then best.1 else "General Service",
    confianza_analisis := if 1/2 < best.2 then "alta" else "media",
    scores := scores }

/-- JSON-like values of an analysis dictionary: strings, null and nested
objects, the shapes the cascade reads and writes. -/
inductive Val where
  | s (x : String)
  | null
  | obj (d : List (String × Val))

mutual

/-- Structural equality test for values. -/
def Val.beq : Val → Val → Bool
  | .s a, .s b => a == b
  | .null, .null => true
  | .obj a, .obj b => Val.beqList a b
  | _, _ => false

/-- Structural equality test for object field lists. -/
def Val.beqList : List (String × Val) → List (String × Val) → Bool
  | [], [] => true
  | (k1, v1) :: r1, (k2, v2) :: r2 => k1 == k2 && Val.beq v1 v2 && Val.beqList r1 r2
  | _, _ => false

end

instance : BEq Val := ⟨Val.beq⟩

/-- A Python dictionary as an association list with unique keys. -/
abbrev Dict := List (String × Val)

/-- Key lookup in an association list, modelling dict.get. -/
def alookup {β : Type} (d : List (String × β)) (k : String) : Option β :=
  (d.find? (fun p => p.1 == k)).map (fun p => p.2)

/-- Key assignment in an association list, modelling dict item
assignment: replace in place when the key is present (keys are unique in
a Python dict), else append. -/
def aset {β : Type} : List (String × β) → String → β → List (String × β)
  | [], k, v => [(k, v)]
  | p :: rest, k, v =>
    if p.1 == k then (k, v) :: rest else p :: aset rest k v

/-- Python dict.update: assign every key of the second dictionary into
the first, in order. -/
def dictUpdate (d new : Dict) : Dict :=
  new.foldl (fun acc kv => aset acc kv.1 kv.2) d

/-- The sentinel string of the analyzer. -/
def sentinel : String := "No especificado"

/-- Embedding of _extract_basic_conditions from
src/utils/optimized_analyzer.py: five commercial-condition fields, each
the sentinel unless its two keywords both occur in the lowercased text. -/
def extract_basic_conditions (text : String) : Dict :=
  let tl := strToLower text
  [("setup_fee",
     .s (if strContains tl "setup" && strContains tl "fee" then "Mencionado" else sentinel)),
   ("monthly_cost",
     .s (if strContains tl "monthly" && strContains tl "cost" then "Mencionado" else sentinel)),
   ("transaction_fees",
     .s (if strContains tl "transaction" && strContains tl "fee" then "Mencionado" else sentinel)),
   ("minimum_requirements", .s sentinel),
   ("contract_terms", .s sentinel)]

/-- Embedding of _basic_analysis from src/utils/optimized_analyzer.py:
regex price extraction (a falsy extraction yields the sentinel), keyword
module classification with General Service default, confidence baja and
the basic commercial conditions. -/
def basic_analysis (text : String) : Dict :=
  let price := extract_price_from_text text
  let tl := strToLower text
  let module :=
    if strContains tl "wallet" || strContains tl "crypto" then "Wallet Base"
    else if strContains tl "kyc" || strContains tl "kyb" || strContains tl "verification" then "KYC/KYB"
    else if strContains tl "trading" || strContains tl "exchange" then "Trading Platform"
    else if strContains tl "payment" || strContains tl "gateway" then "Payment Gateway"
    else if strContains tl "white label" || strContains tl "whitelabel" then "White Label Solution"
    else "General Service"
  [("precio_estimado", .s (match price with
      | some p => if p = "" then sentinel else p
      | none => sentinel)),
   ("clasificacion_modulo", .s module),
   ("confianza_analisis", .s "baja"),
   ("condiciones_comerciales", .obj (extract_basic_conditions text))]

/-- Embedding of _get_fallback_analysis from
src/utils/optimized_analyzer.py: the all-sentinel result. -/
def get_fallback_analysis : Dict :=
  [("precio_estimado", .s sentinel),
   ("clasificacion_modulo", .s "No clasificado"),
   ("confianza_analisis", .s "baja"),
   ("condiciones_comerciales", .obj
     [("setup_fee", .s sentinel), ("monthly_cost", .s sentinel),
      ("transaction_fees", .s sentinel), ("minimum_requirements", .s sentinel),
      ("contract_terms", .s sentinel)])]

/-- Embedding of _parse_gpt_response from
src/utils/optimized_analyzer.py.  Fence stripping and json.loads are
modelled by the argument: some d when the raw reply parses as the JSON
object d, none when json.loads raises JSONDecodeError; the parse-failure
branch returns the fallback analysis instead of propagating. -/
def parse_gpt_response (parsed : Option Dict) : Dict :=
  parsed.getD get_fallback_analysis

/-- Initial result dictionary of _cascade_analysis, with every top-level
field pre-filled (conditions start as an empty object). -/
def baseResult (source ts : String) : Dict :=
  [("fuente", .s source), ("timestamp", .s ts),
   ("analysis_method", .s "unknown"),
   ("precio_estimado", .s sentinel),
   ("clasificacion_modulo", .s "No clasificado"),
   ("condiciones_comerciales", .obj []),
   ("confianza_analisis", .s "baja")]

/-- Step 3 of the cascade: merge the basic analysis and tag the method
basic. -/
def cascadeStep3 (result : Dict) (text : String) : Dict :=
  aset (dictUpdate result (basic_analysis text)) "analysis_method" (.s "basic")

/-- Step 2 of the cascade: when GPT is enabled and its stage produced a
truthy dictionary, merge it and tag the method gpt; a raised exception, a
None return or a falsy (empty) dictionary falls through to step 3. -/
def cascadeStep2 (useGpt openaiAvailable : Bool)
    (gptOutcome : Except Unit (Option Dict)) (result : Dict) (text : String) : Dict :=
  if useGpt && openaiAvailable then
    match gptOutcome with
    | .ok (some gr) =>
      if !gr.isEmpty then aset (dictUpdate result gr) "analysis_method" (.s "gpt")
      else cascadeStep3 result text
    | _ => cascadeStep3 result text
  else cascadeStep3 result text

/-- Embedding of _cascade_analysis from src/utils/optimized_analyzer.py.
The local and GPT stages are oracles: error models a raised exception
caught by the surrounding try, ok none a stage that returned None, ok
(some d) a stage that returned the dictionary d.  The local result wins
when it is truthy and its confidence field does not equal baja (a missing
field passes the test); otherwise the GPT stage is tried, otherwise the
basic analysis. -/
def cascade_analysis (useLocalModels hasModelManager useGpt openaiAvailable : Bool)
    (localOutcome gptOutcome : Except Unit (Option Dict))
    (text source ts : String) : Dict :=
  let result := baseResult source ts
  if useLocalModels && hasModelManager then
    match localOutcome with
    | .ok (some lr) =>
      if !lr.isEmpty && alookup lr "confianza_analisis" != some (.s "baja") then
        aset (dictUpdate result lr) "analysis_method" (.s "local_models")
      else cascadeStep2 useGpt openaiAvailable gptOutcome result text
    | _ => cascadeStep2 useGpt openaiAvailable gptOutcome result text
  else cascadeStep2 useGpt openaiAvailable gptOutcome result text

/-- A cache of analysis results: key to (result, insertion time), times
as exact rationals in seconds. -/
abbrev Cache := List (String × (Dict × ℚ))

/-- The cache time-to-live of one hour. -/
def cacheTtl : ℚ := 3600

/-- Cache key of a request, modelling the f-string of hash(text) and
source; the Python hash builtin is the parameter. -/
def cacheKey (pyhash : String → Int) (text source : String) : String :=
  toString (pyhash text) ++ "_" ++ source

/-- Lookup step of analyze_text_optimized on the cache: a hit requires
the key to be present and the entry age to be strictly below the TTL; a
stale entry is a miss and is left in place. -/
def cacheGet (cache : Cache) (key : String) (now : ℚ) : Option Dict :=
  match alookup cache key with
  | some e => if now - e.2 < cacheTtl then some e.1 else none
  | none => none

/-- Embedding of analyze_text_optimized from
src/utils/optimized_analyzer.py: check the cache, else clean the text,
run the cascade and insert the result with the current time.  Returns the
result and the new cache state. -/
def analyze_text_optimized (pyhash : String → Int)
    (useLocalModels hasModelManager useGpt openaiAvailable : Bool)
    (localOutcome gptOutcome : Except Unit (Option Dict))
    (now : ℚ) (ts : String) (cache : Cache)
    (text source : String) : Dict × Cache :=
  let key := cacheKey pyhash text source
  match cacheGet cache key now with
  | some r => (r, cache)
  | none =>
    let cleaned := clean_text text
    let r := cascade_analysis useLocalModels hasModelManager useGpt openaiAvailable
      localOutcome gptOutcome cleaned source ts
    (r, aset cache key (r, now))

/-- Embedding of optimize_cache from src/utils/optimized_analyzer.py:
only when the entry count strictly exceeds max_size, delete exactly the
entries whose age strictly exceeds the TTL. -/
def optimize_cache (cache : Cache) (now : ℚ) (maxSize : Nat) : Cache :=
  if maxSize < cache.length then
    cache.filter (fun e => !(decide (cacheTtl < now - e.2.2)))
  else cache

/-- Result-processing loop of analyze_batch_optimized from
src/utils/optimized_analyzer.py.  asyncio.gather with return_exceptions
returns one outcome per input item in input order; an exception outcome
is replaced by the fallback analysis, any other passes through. -/
def analyze_batch_process (results : List (Except Unit Dict)) : List Dict :=
  results.map (fun r => match r with
    | .error _ => get_fallback_analysis
    | .ok d => d)

/- Specification-side definitions, written after the wording of the
claims, to be compared with the source-derived functions above. -/

/-- The winning score of the local classifier: maximum of the category
scores (all scores are nonnegative, so 0 is a neutral base). -/
def maxModuleScore (t : String) : ℚ :=
  ((moduleScores t).map (fun p => p.2)).foldl max 0

/-- The category selected by the first-maximal tie-break: the earliest
entry of the score list, in declaration order, attaining the winning
score. -/
def firstArgmaxModule (t : String) : String :=
  ((((moduleScores t).find? (fun p => p.2 == maxModuleScore t))).map
    (fun p => p.1)).getD "General Service"

/-- The five top-level result fields named by the AnalysisResult schema. -/
def resultKeys : List String :=
  ["precio_estimado", "clasificacion_modulo", "condiciones_comerciales",
   "confianza_analisis", "analysis_method"]

/-- The five commercial-condition subfields of the schema. -/
def condKeys : List String :=
  ["setup_fee", "monthly_cost", "transaction_fees", "minimum_requirements",
   "contract_terms"]

theorem alookup_nil {β : Type} (k2 : String) :
    alookup ([] : List (String × β)) k2 = none := rfl

theorem alookup_cons {β : Type} (p : String × β) (rest : List (String × β))
    (k2 : String) :
    alookup (p :: rest) k2 = if p.1 = k2 then some p.2 else alookup rest k2 := by
  by_cases h : p.1 = k2
  · have hb : ((fun q : String × β => q.1 == k2) p = true) := by simp [h]
    simp [alookup, List.find?_cons_of_pos _ hb, h]
  · have hb : ¬ ((fun q : String × β => q.1 == k2) p = true) := by simp [h]
    simp [alookup, List.find?_cons_of_neg _ hb, h]

theorem alookup_aset {β : Type} (d : List (String × β)) (k : String) (v : β)
    (k2 : String) :
    alookup (aset d k v) k2 = if k = k2 then some v else alookup d k2 := by
  induction d with
  | nil =>
    by_cases h : k = k2 <;> simp [aset, alookup_cons, alookup_nil, h]
  | cons p rest ih =>
    by_cases hpk : p.1 = k
    · by_cases h : k = k2 <;>
        simp [aset, hpk, alookup_cons, h]
    · by_cases hp2 : p.1 = k2
      · have hk2 : ¬ k = k2 := fun he => hpk (he ▸ hp2)
        simp [aset, hpk, alookup_cons, hp2, hk2, Ne.symm hk2]
      · simp [aset, hpk, alookup_cons, hp2, ih]

theorem alookup_aset_self {β : Type} (d : List (String × β)) (k : String) (v : β) :
    alookup (aset d k v) k = some v := by
  simp [alookup_aset]

theorem isSome_alookup_dictUpdate (d new : Dict) (k : String)
    (h : (alookup d k).isSome = true) :
    (alookup (dictUpdate d new) k).isSome = true := by
  induction new generalizing d with
  | nil => simpa [dictUpdate] using h
  | cons kv rest ih =>
    show (alookup (dictUpdate (aset d kv.1 kv.2) rest) k).isSome = true
    apply ih
    rw [alookup_aset]
    by_cases hk : kv.1 = k <;> simp [hk, h]

/- Helper lemmas on the arg-max fold of the classifier. -/

theorem le_foldl_max (a : ℚ) (l : List ℚ) : a ≤ l.foldl max a := by
  induction l generalizing a with
  | nil => exact le_refl a
  | cons z l ih => exact le_trans (le_max_left a z) (ih (max a z))

theorem foldl_max_snd_ge (a : ℚ) (l : List (String × ℚ)) :
    a ≤ l.foldl (fun m y => max m y.2) a := by
  have h := le_foldl_max a (l.map (fun p => p.2))
  rwa [List.foldl_map] at h

theorem pickMax_snd (x : String × ℚ) (xs : List (String × ℚ)) :
    (xs.foldl (fun best y => if best.2 < y.2 then y else best) x).2
      = xs.foldl (fun m y => max m y.2) x.2 := by
  induction xs generalizing x with
  | nil => rfl
  | cons y ys ih =>
    rw [List.foldl_cons, List.foldl_cons, ih]
    by_cases h : x.2 < y.2
    · rw [if_pos h, max_eq_right (le_of_lt h)]
    · rw [if_neg h, max_eq_left (le_of_not_lt h)]

theorem find?_pickMax (x : String × ℚ) (xs : List (String × ℚ)) :
    (x :: xs).find? (fun p => p.2 == xs.foldl (fun m y => max m y.2) x.2)
      = some (xs.foldl (fun best y => if best.2 < y.2 then y else best) x) := by
  induction xs generalizing x with
  | nil => simp [List.find?]
  | cons y ys ih =>
    rw [List.foldl_cons, List.foldl_cons]
    by_cases hlt : x.2 < y.2
    · rw [if_pos hlt, max_eq_right (le_of_lt hlt)]
      have hyf := foldl_max_snd_ge y.2 ys
      have hxne : ¬ ((fun p : String × ℚ => p.2 == ys.foldl (fun m yy => max m yy.2) y.2) x = true) := by
        simp only [beq_iff_eq]
        intro he
        have hxm : x.2 < ys.foldl (fun m yy => max m yy.2) y.2 := lt_of_lt_of_le hlt hyf
        rw [he] at hxm
        exact lt_irrefl _ hxm
      rw [@List.find?_cons_of_neg (String × ℚ)
        (fun p => p.2 == ys.foldl (fun m yy => max m yy.2) y.2) x (y :: ys) hxne]
      exact ih y
    · rw [if_neg hlt, max_eq_left (le_of_not_lt hlt)]
      have hih := ih x
      have hxf := foldl_max_snd_ge x.2 ys
      by_cases hx : x.2 = ys.foldl (fun m yy => max m yy.2) x.2
      · have hpos : ((fun p : String × ℚ => p.2 == ys.foldl (fun m yy => max m yy.2) x.2) x = true) := by
          simp only [beq_iff_eq]
          exact hx
        rw [@List.find?_cons_of_pos (String × ℚ)
          (fun p => p.2 == ys.foldl (fun m yy => max m yy.2) x.2) x (y :: ys) hpos]
        rw [@List.find?_cons_of_pos (String × ℚ)
          (fun p => p.2 == ys.foldl (fun m yy => max m yy.2) x.2) x ys hpos] at hih
        exact hih
      · have hneg : ¬ ((fun p : String × ℚ => p.2 == ys.foldl (fun m yy => max m yy.2) x.2) x = true) := by
          simp only [beq_iff_eq]
          exact hx
        rw [@List.find?_cons_of_neg (String × ℚ)
          (fun p => p.2 == ys.foldl (fun m yy => max m yy.2) x.2) x (y :: ys) hneg]
        rw [@List.find?_cons_of_neg (String × ℚ)
          (fun p => p.2 == ys.foldl (fun m yy => max m yy.2) x.2) x ys hneg] at hih
        have hstrict : x.2 < ys.foldl (fun m yy => max m yy.2) x.2 :=
          lt_of_le_of_ne hxf hx
        have hyneg : ¬ ((fun p : String × ℚ => p.2 == ys.foldl (fun m yy => max m yy.2) x.2) y = true) := by
          simp only [beq_iff_eq]
          intro he
          have hym : y.2 < ys.foldl (fun m yy => max m yy.2) x.2 :=
            lt_of_le_of_lt (le_of_not_lt hlt) hstrict
          rw [he] at hym
          exact lt_irrefl _ hym
        rw [@List.find?_cons_of_neg (String × ℚ)
          (fun p => p.2 == ys.foldl (fun m yy => max m yy.2) x.2) y ys hyneg]
        exact hih

/- Helper lemmas on the price-extraction selection loop. -/

theorem firstLikely_eq_find? (ctx : String) (l : List String) :
    firstLikely ctx l = l.find? (fun p => is_likely_price p ctx) := by
  induction l with
  | nil => rfl
  | cons p ps ih =>
    simp only [firstLikely]
    by_cases h : is_likely_price p ctx = true
    · rw [if_pos h, @List.find?_cons_of_pos String (fun q => is_likely_price q ctx) p ps h]
    · rw [if_neg h, @List.find?_cons_of_neg String (fun q => is_likely_price q ctx) p ps h]
      exact ih

theorem extract_select (t : String) :
    extract_price_from_text t =
      match (candidatePrices t).find? (fun p => is_likely_price p (clean_text t)) with
      | some p => some p
      | none => (candidatePrices t).head? := by
  by_cases ht : t = ""
  · subst ht; rfl
  · have key : ∀ (l : List String) (ctx : String),
        (if l.isEmpty then (none : Option String)
         else match firstLikely ctx l with
              | some p => some p
              | none => l.head?)
          = match l.find? (fun p => is_likely_price p ctx) with
            | some p => some p
            | none => l.head? := by
      intro l ctx
      cases l with
      | nil => rfl
      | cons a as => simp [firstLikely_eq_find?]
    simp only [extract_price_from_text, if_neg ht, candidatePrices]
    exact key _ _

theorem normalize_price_cases (s : String) :
    (∃ r, normalize_price s = "$" ++ r) ∨
    (normalize_price s = s ∧ parseNumQ (stripNonNumeric (normalize_price s)) = none) := by
  by_cases hs : s = ""
  · right
    rw [hs]
    exact ⟨rfl, rfl⟩
  · cases hp : parseNumQ (stripNonNumeric s) with
    | some q =>
      left
      have hn : normalize_price s = formatMoney q := by
        simp [normalize_price, hs, hp]
      rw [hn]
      unfold formatMoney
      by_cases hq : (1000 : ℚ) ≤ q
      · rw [if_pos hq]
        exact ⟨_, rfl⟩
      · rw [if_neg hq]
        refine ⟨toString ((roundHalfEven (q * 100)).toNat / 100) ++ "." ++
          twoDigits ((roundHalfEven (q * 100)).toNat % 100), ?_⟩
        simp [String.append_assoc]
    | none =>
      right
      have hn : normalize_price s = s := by
        simp [normalize_price, hs, hp]
      rw [hn]
      exact ⟨rfl, hp⟩

/- Helper lemmas on the classifier scores. -/

theorem moduleScores_nonneg (t : String) : ∀ p ∈ moduleScores t, 0 ≤ p.2 := by
  intro p hp
  simp only [moduleScores, List.mem_map] at hp
  obtain ⟨mk, _, hmk⟩ := hp
  rw [← hmk]
  exact div_nonneg (Nat.cast_nonneg _) (Nat.cast_nonneg _)

theorem maxModuleScore_cons (t : String) (x : String × ℚ) (xs : List (String × ℚ))
    (hms : moduleScores t = x :: xs) :
    maxModuleScore t = xs.foldl (fun m y => max m y.2) x.2 := by
  have hnn : 0 ≤ x.2 :=
    moduleScores_nonneg t x (hms ▸ List.mem_cons_self x xs)
  unfold maxModuleScore
  rw [hms, List.map_cons, List.foldl_cons, List.foldl_map, max_eq_right hnn]

theorem moduleScores_ne_nil (t : String) : moduleScores t ≠ [] := by
  simp [moduleScores, moduleKeywords]

/-- C6: the local classifier scores each fixed category by keyword
fraction, picks the arg-max category with General Service substituted on
a zero winning score, reports confidence alta exactly when the winning
score exceeds one half and media otherwise, and never reports baja. -/
theorem local_classifier_output_spec (t : String) :
    ((process_classification_output t).confianza_analisis
        = if 1/2 < maxModuleScore t then "alta" else "media")
  ∧ (process_classification_output t).confianza_analisis ≠ "baja"
  ∧ ((process_classification_output t).clasificacion_modulo
        = if 0 < maxModuleScore t then firstArgmaxModule t else "General Service")
  ∧ (process_classification_output t).scores = moduleScores t := by
  cases hms : moduleScores t with
  | nil => exact absurd hms (moduleScores_ne_nil t)
  | cons x xs =>
    have hmax := maxModuleScore_cons t x xs hms
    have hbest : argmaxFold (moduleScores t)
        = some (xs.foldl (fun best y => if best.2 < y.2 then y else best) x) := by
      rw [hms]; rfl
    have hout : process_classification_output t =
        { clasificacion_modulo :=
            if 0 < (xs.foldl (fun best y => if best.2 < y.2 then y else best) x).2
            then (xs.foldl (fun best y => if best.2 < y.2 then y else best) x).1
            else "General Service",
          confianza_analisis :=
            if 1/2 < (xs.foldl (fun best y => if best.2 < y.2 then y else best) x).2
            then "alta" else "media",
          scores := moduleScores t } := by
      simp [process_classification_output, hbest]
    have hb2 : (xs.foldl (fun best y => if best.2 < y.2 then y else best) x).2
        = maxModuleScore t := by
      rw [hmax]; exact pickMax_snd x xs
    have hfa : firstArgmaxModule t
        = (xs.foldl (fun best y => if best.2 < y.2 then y else best) x).1 := by
      unfold firstArgmaxModule
      rw [hms, hmax, find?_pickMax x xs]
      rfl
    refine ⟨?_, ?_, ?_, ?_⟩
    · rw [hout]; simp only; rw [hb2]
    · rw [hout]; simp only
      split_ifs <;> decide
    · rw [hout]; simp only; rw [hb2, hfa]
    · rw [hout]; exact hms

/-- C9: local classification is a pure function of the text, and on
score ties the arg-max fold selects the earliest category in the
declaration order of the keyword map: the selected pair is exactly the
first entry of the ordered score list attaining the winning score. -/
theorem local_classifier_tiebreak_first_declared (t : String) :
    argmaxFold (moduleScores t)
      = (moduleScores t).find? (fun p => p.2 == maxModuleScore t) := by
  cases hms : moduleScores t with
  | nil => exact absurd hms (moduleScores_ne_nil t)
  | cons x xs =>
    have hmax := maxModuleScore_cons t x xs hms
    rw [hmax]
    exact (find?_pickMax x xs).symm

/-- C5: price extraction collects all pattern-family candidates (with
the four-digit fallback when no pattern matched), returns the first
candidate accepted by the likelihood test, else the first candidate, and
returns none exactly when there are no candidates; the likelihood test
holds exactly when the context contains a price keyword and the value
parses into the range from 1 to 1000000. -/
theorem extract_price_selection_policy (t : String) :
    (extract_price_from_text t =
      match (candidatePrices t).find? (fun p => is_likely_price p (clean_text t)) with
      | some p => some p
      | none => (candidatePrices t).head?)
  ∧ (extract_price_from_text t = none ↔ candidatePrices t = [])
  ∧ (∀ p, is_likely_price p (clean_text t) = true ↔
      ((∃ k ∈ priceKeywords, strContains (strToLower (clean_text t)) k = true) ∧
       ∃ v, parseNumQ (stripNonNumeric p) = some v ∧ 1 ≤ v ∧ v ≤ 1000000)) := by
  refine ⟨extract_select t, ⟨?_, ?_⟩, ?_⟩
  · intro h
    rw [extract_select t] at h
    cases hf : (candidatePrices t).find? (fun p => is_likely_price p (clean_text t)) with
    | some q => rw [hf] at h; exact absurd h (by simp)
    | none =>
      rw [hf] at h
      exact List.head?_eq_none_iff.mp h
  · intro h
    rw [extract_select t, h]
    rfl
  · intro p
    unfold is_likely_price
    cases hp : parseNumQ (stripNonNumeric p) with
    | none => simp
    | some v =>
      simp [List.any_eq_true, and_assoc]

/- Small injectivity helpers for Val. -/

theorem some_val_s_ne (a b : String) (h : a ≠ b) :
    (some (Val.s a) : Option Val) ≠ some (Val.s b) := by
  intro he
  apply h
  have h2 : Val.s a = Val.s b := by injection he
  injection h2

theorem cascadeStep2_shape (ug oa : Bool) (go : Except Unit (Option Dict))
    (result : Dict) (text : String) :
    ∃ X v, cascadeStep2 ug oa go result text
      = aset (dictUpdate result X) "analysis_method" (Val.s v) := by
  unfold cascadeStep2
  by_cases h : (ug && oa) = true
  · rw [if_pos h]
    rcases go with w | olo
    · exact ⟨_, _, rfl⟩
    · rcases olo with _ | gr
      · exact ⟨_, _, rfl⟩
      · by_cases hg : (!gr.isEmpty) = true
        · exact ⟨gr, "gpt", if_pos hg⟩
        · exact ⟨_, _, if_neg hg⟩
  · rw [if_neg h]
    exact ⟨_, _, rfl⟩

theorem cascade_shape (ul hm ug oa : Bool) (lo go : Except Unit (Option Dict))
    (text source ts : String) :
    ∃ X v, cascade_analysis ul hm ug oa lo go text source ts
      = aset (dictUpdate (baseResult source ts) X) "analysis_method" (Val.s v) := by
  unfold cascade_analysis
  by_cases h1 : (ul && hm) = true
  · rw [if_pos h1]
    rcases lo with u | olo
    · exact cascadeStep2_shape ug oa go _ text
    · rcases olo with _ | lr
      · exact cascadeStep2_shape ug oa go _ text
      · by_cases hl : (!lr.isEmpty &&
            (alookup lr "confianza_analisis" != some (Val.s "baja"))) = true
        · exact ⟨lr, "local_models", if_pos hl⟩
        · obtain ⟨X, v, hs2⟩ := cascadeStep2_shape ug oa go (baseResult source ts) text
          exact ⟨X, v, (if_neg hl).trans hs2⟩
  · rw [if_neg h1]
    exact cascadeStep2_shape ug oa go _ text

theorem baseResult_keys (source ts : String) (k : String) (hk : k ∈ resultKeys) :
    (alookup (baseResult source ts) k).isSome = true := by
  fin_cases hk <;> rfl

/-- C1 counterexample: with a GPT stage winning on a fragmentary reply that
sets only precio_estimado, the final result keeps an empty
condiciones_comerciales object (none of the five subfields is present)
and keeps the sentinel classification even though the text contains the
wallet and setup-fee keywords the claimed merge would use, so no
PriceExtractor or keyword fill happens after the winning stage. -/
theorem gpt_partial_merge_counterexample :
    alookup (cascade_analysis false false true true (Except.ok none)
        (Except.ok (some [("precio_estimado", Val.s "$5")]))
        "wallet setup fee" "src" "ts0") "condiciones_comerciales"
      = some (Val.obj [])
  ∧ alookup (cascade_analysis false false true true (Except.ok none)
        (Except.ok (some [("precio_estimado", Val.s "$5")]))
        "wallet setup fee" "src" "ts0") "clasificacion_modulo"
      = some (Val.s "No clasificado") :=
  ⟨rfl, rfl⟩

/-- C1 (amended): every completed cascade result contains the five
top-level fields of the schema (they are pre-filled before any stage and
never removed); the five condiciones_comerciales subfields are
guaranteed present, with string values, on the basic path, whose
conditions object is exactly the basic-conditions dictionary of the
text; a winning GPT stage merely dict-merges the parsed reply over the
defaults, with no sentinel fill of the subfields (see the
counterexample). -/
theorem result_fields_always_present :
    (∀ (ul hm ug oa : Bool) (lo go : Except Unit (Option Dict))
       (text source ts k : String), k ∈ resultKeys →
       (alookup (cascade_analysis ul hm ug oa lo go text source ts) k).isSome = true)
  ∧ (∀ (text : String) (sub : String), sub ∈ condKeys →
       ∃ str, alookup (extract_basic_conditions text) sub = some (Val.s str))
  ∧ (∀ (text source ts : String),
       alookup (cascade_analysis false false false false (Except.ok none)
           (Except.ok none) text source ts) "condiciones_comerciales"
         = some (Val.obj (extract_basic_conditions text))) := by
  refine ⟨?_, ?_, ?_⟩
  · intro ul hm ug oa lo go text source ts k hk
    obtain ⟨X, v, hshape⟩ := cascade_shape ul hm ug oa lo go text source ts
    rw [hshape, alookup_aset]
    by_cases hke : "analysis_method" = k
    · simp [hke]
    · rw [if_neg hke]
      exact isSome_alookup_dictUpdate _ _ _ (baseResult_keys source ts k hk)
  · intro text sub hsub
    fin_cases hsub <;> exact ⟨_, rfl⟩
  · intro text source ts
    rfl

/-- C1 witness: the presence part applied at a concrete key, flag
vector and input. -/
theorem result_fields_always_present_witness :
    (alookup (cascade_analysis true true true true (Except.ok none)
        (Except.ok none) "a" "s" "ts0") "precio_estimado").isSome = true :=
  result_fields_always_present.1 true true true true (Except.ok none)
    (Except.ok none) "a" "s" "ts0" "precio_estimado" (by simp [resultKeys])

/-- C3 counterexample: a malformed GPT reply (JSON parse failure) does
not fall through to the basic stage: the parse returns the truthy
fallback dictionary, so the cascade tags the result gpt, refuting the
claimed analysis_method basic for this failure mode. -/
theorem gpt_parse_failure_not_basic :
    alookup (cascade_analysis false false true true (Except.ok none)
        (Except.ok (some (parse_gpt_response none))) "any text" "src" "ts0")
      "analysis_method" = some (Val.s "gpt")
  ∧ ¬ (alookup (cascade_analysis false false true true (Except.ok none)
        (Except.ok (some (parse_gpt_response none))) "any text" "src" "ts0")
      "analysis_method" = some (Val.s "basic")) := by
  refine ⟨rfl, ?_⟩
  intro h
  have h1 : alookup (cascade_analysis false false true true (Except.ok none)
      (Except.ok (some (parse_gpt_response none))) "any text" "src" "ts0")
      "analysis_method" = some (Val.s "gpt") := rfl
  rw [h1] at h
  exact some_val_s_ne "gpt" "basic" (by decide) h

/-- C3 (amended): no GPT failure mode surfaces an exception (the cascade
is a total function of the stage outcomes); a timeout or transport
failure (the stage returns None or raises) falls through to the basic
stage with analysis_method basic; a malformed reply instead merges the
all-sentinel fallback dictionary and returns with analysis_method gpt,
sentinel price and confidence baja. -/
theorem gpt_failure_fallback (text source ts : String) :
    (alookup (cascade_analysis false false true true (Except.ok none)
        (Except.ok none) text source ts) "analysis_method" = some (Val.s "basic"))
  ∧ (alookup (cascade_analysis false false true true (Except.ok none)
        (Except.error ()) text source ts) "analysis_method" = some (Val.s "basic"))
  ∧ (alookup (cascade_analysis false false true true (Except.ok none)
        (Except.ok (some (parse_gpt_response none))) text source ts)
        "analysis_method" = some (Val.s "gpt"))
  ∧ (alookup (cascade_analysis false false true true (Except.ok none)
        (Except.ok (some (parse_gpt_response none))) text source ts)
        "precio_estimado" = some (Val.s sentinel))
  ∧ (alookup (cascade_analysis false false true true (Except.ok none)
        (Except.ok (some (parse_gpt_response none))) text source ts)
        "confianza_analisis" = some (Val.s "baja")) :=
  ⟨alookup_aset_self _ _ _, alookup_aset_self _ _ _, rfl, rfl, rfl⟩

/-- C4 counterexample: the empty input produces the keyword-default
classification General Service on the basic path, not the sentinel
No clasificado the claim names. -/
theorem empty_input_not_sentinel_module :
    alookup (cascade_analysis false false false false (Except.ok none)
        (Except.ok none) "" "unknown" "ts0") "clasificacion_modulo"
      = some (Val.s "General Service")
  ∧ ¬ (alookup (cascade_analysis false false false false (Except.ok none)
        (Except.ok none) "" "unknown" "ts0") "clasificacion_modulo"
      = some (Val.s "No clasificado")) := by
  refine ⟨rfl, ?_⟩
  intro h
  have h1 : alookup (cascade_analysis false false false false (Except.ok none)
      (Except.ok none) "" "unknown" "ts0") "clasificacion_modulo"
      = some (Val.s "General Service") := rfl
  rw [h1] at h
  exact some_val_s_ne "General Service" "No clasificado" (by decide) h

/-- C4 (amended): on empty input with the local and GPT stages
unavailable, the cascade returns the basic result with sentinel price,
all-sentinel commercial conditions and confidence baja, but with
clasificacion_modulo equal to the keyword default General Service, not
the sentinel; cleaning the empty string yields the empty string. -/
theorem empty_input_basic_result (source ts : String) :
    clean_text "" = ""
  ∧ (alookup (cascade_analysis false false false false (Except.ok none)
       (Except.ok none) "" source ts) "precio_estimado" = some (Val.s sentinel))
  ∧ (alookup (cascade_analysis false false false false (Except.ok none)
       (Except.ok none) "" source ts) "clasificacion_modulo"
       = some (Val.s "General Service"))
  ∧ (alookup (cascade_analysis false false false false (Except.ok none)
       (Except.ok none) "" source ts) "confianza_analisis" = some (Val.s "baja"))
  ∧ (alookup (cascade_analysis false false false false (Except.ok none)
       (Except.ok none) "" source ts) "analysis_method" = some (Val.s "basic"))
  ∧ (alookup (cascade_analysis false false false false (Except.ok none)
       (Except.ok none) "" source ts) "condiciones_comerciales"
       = some (Val.obj
           [("setup_fee", Val.s sentinel), ("monthly_cost", Val.s sentinel),
            ("transaction_fees", Val.s sentinel),
            ("minimum_requirements", Val.s sentinel),
            ("contract_terms", Val.s sentinel)])) :=
  ⟨rfl, rfl, rfl, rfl, rfl, rfl⟩

/-- C7: batch processing maps the per-item outcomes (returned in input
order by the gather call) to results of the same length, position for
position: a successful item passes its result through unchanged and a
raised item is replaced by the fallback analysis, so one failure never
aborts the batch or touches sibling results. -/
theorem batch_order_and_fault_isolation (rs : List (Except Unit Dict)) :
    (analyze_batch_process rs).length = rs.length
  ∧ (∀ i : Nat, (analyze_batch_process rs)[i]? =
      (rs[i]?).map (fun r => match r with
        | .error _ => get_fallback_analysis
        | .ok d => d))
  ∧ (∀ (i : Nat) (d : Dict), rs[i]? = some (Except.ok d) →
      (analyze_batch_process rs)[i]? = some d)
  ∧ (∀ (i : Nat) (u : Unit), rs[i]? = some (Except.error u) →
      (analyze_batch_process rs)[i]? = some get_fallback_analysis) := by
  refine ⟨List.length_map _ _, ?_, ?_, ?_⟩
  · intro i
    exact List.getElem?_map _ rs i
  · intro i d h
    rw [analyze_batch_process, List.getElem?_map _ rs i, h]
    rfl
  · intro i u h
    rw [analyze_batch_process, List.getElem?_map _ rs i, h]
    rfl

/-- C7 witness: the fault-isolation part applied to a concrete batch
whose middle item raised. -/
theorem batch_order_and_fault_isolation_witness :
    (analyze_batch_process [Except.ok (baseResult "a" "t"), Except.error (),
        Except.ok (baseResult "c" "t")])[1]?
      = some get_fallback_analysis :=
  (batch_order_and_fault_isolation [Except.ok (baseResult "a" "t"), Except.error (),
      Except.ok (baseResult "c" "t")]).2.2.2 1 () rfl

/-- A fresh cache entry at the front of the cache is a hit. -/
theorem cacheGet_cons_self (key : String) (r : Dict) (ts now : ℚ) (rest : Cache)
    (h : now - ts < cacheTtl) :
    cacheGet ((key, (r, ts)) :: rest) key now = some r := by
  simp [cacheGet, alookup_cons, h]

/-- A key freshly assigned into the cache is a hit. -/
theorem cacheGet_aset_self (cache : Cache) (key : String) (r : Dict)
    (ts now : ℚ) (h : now - ts < cacheTtl) :
    cacheGet (aset cache key (r, ts)) key now = some r := by
  simp [cacheGet, alookup_aset_self, h]

/-- C2 (amended): when the first call misses the cache at time t0 (so it
inserts its result then) and the second call arrives at t1 with
t1 - t0 strictly below the TTL, the second call returns the identical
cached result dictionary and leaves the cache unchanged — in particular
its analysis_method equals the method of the first call result; the code
never rewrites analysis_method to cache. -/
theorem cache_hit_returns_identical (pyhash : String → Int)
    (ul hm ug oa ul2 hm2 ug2 oa2 : Bool)
    (lo go lo2 go2 : Except Unit (Option Dict))
    (t0 t1 : ℚ) (ts1 ts2 : String) (cache : Cache) (text source : String)
    (hmiss : cacheGet cache (cacheKey pyhash text source) t0 = none)
    (hfresh : t1 - t0 < cacheTtl) :
    (analyze_text_optimized pyhash ul2 hm2 ug2 oa2 lo2 go2 t1 ts2
        (analyze_text_optimized pyhash ul hm ug oa lo go t0 ts1 cache text source).2
        text source).1
      = (analyze_text_optimized pyhash ul hm ug oa lo go t0 ts1 cache text source).1
  ∧ (analyze_text_optimized pyhash ul2 hm2 ug2 oa2 lo2 go2 t1 ts2
        (analyze_text_optimized pyhash ul hm ug oa lo go t0 ts1 cache text source).2
        text source).2
      = (analyze_text_optimized pyhash ul hm ug oa lo go t0 ts1 cache text source).2 := by
  have hfirst : analyze_text_optimized pyhash ul hm ug oa lo go t0 ts1 cache text source
      = (cascade_analysis ul hm ug oa lo go (clean_text text) source ts1,
         aset cache (cacheKey pyhash text source)
           ((cascade_analysis ul hm ug oa lo go (clean_text text) source ts1), t0)) := by
    simp only [analyze_text_optimized]
    rw [hmiss]
  have hsecond : analyze_text_optimized pyhash ul2 hm2 ug2 oa2 lo2 go2 t1 ts2
        (aset cache (cacheKey pyhash text source)
          ((cascade_analysis ul hm ug oa lo go (clean_text text) source ts1), t0))
        text source
      = (cascade_analysis ul hm ug oa lo go (clean_text text) source ts1,
         aset cache (cacheKey pyhash text source)
           ((cascade_analysis ul hm ug oa lo go (clean_text text) source ts1), t0)) := by
    simp only [analyze_text_optimized]
    rw [cacheGet_aset_self cache (cacheKey pyhash text source) _ t0 t1 hfresh]
  rw [hfirst, hsecond]
  exact ⟨rfl, rfl⟩

/-- C2 witness: the amended theorem applied to a concrete run with all
stages disabled, a fresh cache and a one-second gap. -/
theorem cache_hit_returns_identical_witness :
    (analyze_text_optimized (fun _ => 0) false false false false
        (Except.ok none) (Except.ok none) 1 "ts2"
        (analyze_text_optimized (fun _ => 0) false false false false
          (Except.ok none) (Except.ok none) 0 "ts1" [] "x" "s").2
        "x" "s").1
      = (analyze_text_optimized (fun _ => 0) false false false false
          (Except.ok none) (Except.ok none) 0 "ts1" [] "x" "s").1
  ∧ (analyze_text_optimized (fun _ => 0) false false false false
        (Except.ok none) (Except.ok none) 1 "ts2"
        (analyze_text_optimized (fun _ => 0) false false false false
          (Except.ok none) (Except.ok none) 0 "ts1" [] "x" "s").2
        "x" "s").2
      = (analyze_text_optimized (fun _ => 0) false false false false
          (Except.ok none) (Except.ok none) 0 "ts1" [] "x" "s").2 :=
  cache_hit_returns_identical (fun _ => 0) false false false false false false false false
    (Except.ok none) (Except.ok none) (Except.ok none) (Except.ok none)
    0 1 "ts1" "ts2" [] "x" "s" rfl (by norm_num [cacheTtl])

/-- C2 counterexample: in a concrete two-call run within the TTL, the
second call returns the identical cached result (first conjunct of the
claim), but its analysis_method is basic, the method of the first call, not
cache: the code never sets the method to cache on a hit. -/
theorem cache_hit_method_not_cache_counterexample :
    alookup (analyze_text_optimized (fun _ => 0) false false false false
        (Except.ok none) (Except.ok none) 1 "ts2"
        (analyze_text_optimized (fun _ => 0) false false false false
          (Except.ok none) (Except.ok none) 0 "ts1" [] "x" "s").2
        "x" "s").1 "analysis_method"
      = some (Val.s "basic")
  ∧ ¬ (alookup (analyze_text_optimized (fun _ => 0) false false false false
        (Except.ok none) (Except.ok none) 1 "ts2"
        (analyze_text_optimized (fun _ => 0) false false false false
          (Except.ok none) (Except.ok none) 0 "ts1" [] "x" "s").2
        "x" "s").1 "analysis_method"
      = some (Val.s "cache")) := by
  have hfirst : analyze_text_optimized (fun _ => 0) false false false false
      (Except.ok none) (Except.ok none) 0 "ts1" [] "x" "s"
      = (cascade_analysis false false false false (Except.ok none) (Except.ok none)
           (clean_text "x") "s" "ts1",
         aset [] (cacheKey (fun _ => 0) "x" "s")
           ((cascade_analysis false false false false (Except.ok none) (Except.ok none)
              (clean_text "x") "s" "ts1"), 0)) := rfl
  have hsecond : analyze_text_optimized (fun _ => 0) false false false false
      (Except.ok none) (Except.ok none) 1 "ts2"
      (analyze_text_optimized (fun _ => 0) false false false false
        (Except.ok none) (Except.ok none) 0 "ts1" [] "x" "s").2 "x" "s"
      = (cascade_analysis false false false false (Except.ok none) (Except.ok none)
           (clean_text "x") "s" "ts1",
         aset [] (cacheKey (fun _ => 0) "x" "s")
           ((cascade_analysis false false false false (Except.ok none) (Except.ok none)
              (clean_text "x") "s" "ts1"), 0)) := by
    rw [hfirst]
    simp only [analyze_text_optimized]
    rw [cacheGet_aset_self [] (cacheKey (fun _ => 0) "x" "s") _ 0 1
      (by norm_num [cacheTtl])]
  rw [hsecond]
  refine ⟨rfl, ?_⟩
  intro h
  have h1 : alookup (cascade_analysis false false false false (Except.ok none)
      (Except.ok none) (clean_text "x") "s" "ts1") "analysis_method"
      = some (Val.s "basic") := rfl
  rw [h1] at h
  exact some_val_s_ne "basic" "cache" (by decide) h

/-- C8 counterexample: an entry whose age is exactly the TTL is a miss
at lookup (so it is TTL-expired in the sense of the claim itself), yet a
compaction pass triggered by the size bound keeps it, because deletion
requires an age strictly greater than the TTL — refuting that compaction
deletes precisely the TTL-expired entries. -/
theorem compaction_keeps_boundary_entry :
    optimize_cache [("k", (([] : Dict), (0 : ℚ)))] 3600 0
      = [("k", (([] : Dict), (0 : ℚ)))]
  ∧ cacheGet [("k", (([] : Dict), (0 : ℚ)))] "k" 3600 = none := by
  constructor
  · unfold optimize_cache
    rw [if_pos (by norm_num : (0 : Nat) < ([("k", (([] : Dict), (0 : ℚ)))]).length)]
    have hc : (!decide (cacheTtl < (3600 : ℚ))) = true := by
      norm_num [cacheTtl]
    simp [List.filter, hc]
  · unfold cacheGet
    rw [show alookup [("k", (([] : Dict), (0 : ℚ)))] "k" = some ([], 0) from rfl]
    exact if_neg (by norm_num [cacheTtl])

/-- C8 (amended): a cache lookup hits exactly when the key is present
with age strictly below the TTL; an entry at or beyond the TTL is a miss
and is left in place by lookup; compaction does nothing while the entry
count is at most max_size; when the entry count strictly exceeds
max_size it keeps exactly the entries of age at most the TTL (no other
eviction policy), so an entry whose age equals the TTL survives
compaction even though lookup treats it as a miss. -/
theorem cache_ttl_and_compaction (cache : Cache) (now : ℚ) (maxSize : Nat)
    (key : String) (r : Dict) (ts : ℚ) :
    (cacheGet cache key now = some r ↔
      ∃ ts2, alookup cache key = some (r, ts2) ∧ now - ts2 < cacheTtl)
  ∧ (cache.length ≤ maxSize → optimize_cache cache now maxSize = cache)
  ∧ (maxSize < cache.length →
      optimize_cache cache now maxSize
        = cache.filter (fun e => decide (now - e.2.2 ≤ cacheTtl)))
  ∧ (alookup cache key = some (r, ts) → cacheTtl ≤ now - ts →
      cacheGet cache key now = none)
  ∧ (∀ e ∈ cache, now - e.2.2 = cacheTtl → e ∈ optimize_cache cache now maxSize) := by
  refine ⟨?_, ?_, ?_, ?_, ?_⟩
  · unfold cacheGet
    cases halo : alookup cache key with
    | none => simp
    | some e =>
      show (if now - e.2 < cacheTtl then some e.1 else none) = some r ↔ _
      by_cases hc : now - e.2 < cacheTtl
      · rw [if_pos hc]
        constructor
        · intro h
          have he1 : e.1 = r := by injection h
          exact ⟨e.2, by rw [← he1], hc⟩
        · intro ⟨ts2, h1, _⟩
          have he : e = (r, ts2) := by injection h1
          rw [he]
      · rw [if_neg hc]
        constructor
        · intro h
          exact absurd h (by simp)
        · intro ⟨ts2, h1, h2⟩
          have he : e = (r, ts2) := by injection h1
          rw [he] at hc
          exact absurd h2 hc
  · intro h
    unfold optimize_cache
    rw [if_neg (not_lt.mpr h)]
  · intro h
    unfold optimize_cache
    rw [if_pos h]
    apply List.filter_congr
    intro e _
    by_cases hc : cacheTtl < now - e.2.2
    · simp [hc, not_le_of_lt hc]
    · simp [hc, not_lt.mp hc]
  · intro h1 h2
    unfold cacheGet
    rw [h1]
    exact if_neg (not_lt.mpr h2)
  · intro e he heq
    unfold optimize_cache
    by_cases hs : maxSize < cache.length
    · rw [if_pos hs]
      rw [List.mem_filter]
      refine ⟨he, ?_⟩
      rw [heq]
      simp
    · rw [if_neg hs]
      exact he

/-- C8 witness: the amended theorem applied to the concrete
boundary-aged entry. -/
theorem cache_ttl_and_compaction_witness :
    cacheGet [("k", (([] : Dict), (0 : ℚ)))] "k" 3600 = none
  ∧ ("k", (([] : Dict), (0 : ℚ)))
      ∈ optimize_cache [("k", (([] : Dict), (0 : ℚ)))] 3600 0 :=
  ⟨(cache_ttl_and_compaction [("k", (([] : Dict), (0 : ℚ)))] 3600 0 "k" [] 0).2.2.2.1
      rfl (by norm_num [cacheTtl]),
   (cache_ttl_and_compaction [("k", (([] : Dict), (0 : ℚ)))] 3600 0 "k" [] 0).2.2.2.2
      ("k", ([], 0)) (List.mem_cons_self _ _) (by norm_num [cacheTtl])⟩

end Analista
